import Mathlib

/-!
Verification of the HTTPWrapper resilient request execution engine.

The repository ships demo entry points (`example.py`,
`example_usage_plugin_system.py`) and a benchmark harness
(`benchmarks/performance_benchmark.py`); the `httpwrapper` package that
they depend on (config, client, circuit breaker, cache, plugin system,
metrics) is not part of the checked-in sources, so those components are
modelled here from the specification, while code that does appear in the
sources (notably `AuthPlugin.pre_request`) is embedded directly from it.

Durations, timestamps and percentages are modelled as rationals.
-/

namespace HTTPWrapper

/-! ## Backoff calculator (spec 4.1) -/

/-- Backoff strategies recognised by `RetryConfig` (`BackoffStrategy` in
`httpwrapper.config`). -/
inductive BackoffStrategy
  | FIXED
  | LINEAR
  | EXPONENTIAL
deriving DecidableEq, Repr

/-- Modelled from the spec: `RetryPolicy` of the missing
`httpwrapper.config` module — max_attempts, backoff strategy and factor,
optional max_delay, jitter flag, retryable status codes and exception
kinds. -/
structure RetryConfig where
  max_attempts : Nat
  backoff_strategy : BackoffStrategy
  backoff_factor : ℚ
  max_delay : Option ℚ
  jitter : Bool
  retry_on_status_codes : List Nat
  retry_on_exceptions : List String

/-- Modelled from the spec: the raw (pre-cap, pre-jitter) delay of the
missing BackoffCalculator — FIXED = backoff_factor, LINEAR =
backoff_factor x attempt, EXPONENTIAL = backoff_factor x 2^(attempt-1). -/
def rawDelay (strategy : BackoffStrategy) (factor : ℚ) (attempt : Nat) : ℚ :=
  match strategy with
  | .FIXED => factor
  | .LINEAR => factor * attempt
  | .EXPONENTIAL => factor * 2 ^ (attempt - 1)

/-- Modelled from the spec: `compute_delay(attempt, policy)` of the missing
BackoffCalculator, before jitter is applied — the raw delay, capped at
`max_delay` when that is set. -/
def compute_delay (attempt : Nat) (p : RetryConfig) : ℚ :=
  match p.max_delay with
  | none => rawDelay p.backoff_strategy p.backoff_factor attempt
  | some m => min (rawDelay p.backoff_strategy p.backoff_factor attempt) m

/-! ## Circuit breaker (spec 4.2) -/

/-- The three phases of a per-host breaker. -/
inductive BreakerPhase
  | CLOSED
  | OPEN
  | HALF_OPEN
deriving DecidableEq, Repr

/-- Modelled from the spec: `CircuitBreakerConfig` of the missing
`httpwrapper.config` module. -/
structure CircuitBreakerConfig where
  failure_threshold : Nat
  recovery_timeout : ℚ
  success_threshold : Nat

/-- Modelled from the spec: the per-host state owned by the missing
CircuitBreakerRegistry. -/
structure BreakerState where
  phase : BreakerPhase
  consecutive_failures : Nat
  consecutive_successes : Nat
  last_transition_time : ℚ
deriving DecidableEq, Repr

/-- The initial (CLOSED) breaker state for a freshly seen host. -/
def initialBreaker : BreakerState :=
  { phase := .CLOSED
    consecutive_failures := 0
    consecutive_successes := 0
    last_transition_time := 0 }

/-- Modelled from the spec: `allow_request(host)` of the missing
CircuitBreakerRegistry. CLOSED and HALF_OPEN admit the request; OPEN
denies it until `recovery_timeout` has elapsed since the transition time,
at which point the next request is admitted as a trial and the state moves
to HALF_OPEN before that trial executes. -/
def allow_request (cfg : CircuitBreakerConfig) (s : BreakerState) (now : ℚ) :
    Bool × BreakerState :=
  match s.phase with
  | .CLOSED => (true, s)
  | .OPEN =>
      if s.last_transition_time + cfg.recovery_timeout ≤ now then
        (true, { phase := .HALF_OPEN
                 consecutive_failures := 0
                 consecutive_successes := 0
                 last_transition_time := now })
      else
        (false, s)
  | .HALF_OPEN => (true, s)

/-- Modelled from the spec: `record_failure(host)` of the missing
CircuitBreakerRegistry. In CLOSED a failure increments
`consecutive_failures` and, when it reaches `failure_threshold`,
transitions to OPEN recording the transition time and resetting the
counters; in HALF_OPEN any failure immediately transitions back to OPEN
and resets the transition time. -/
def record_failure (cfg : CircuitBreakerConfig) (s : BreakerState) (now : ℚ) :
    BreakerState :=
  match s.phase with
  | .CLOSED =>
      if cfg.failure_threshold ≤ s.consecutive_failures + 1 then
        { phase := .OPEN
          consecutive_failures := 0
          consecutive_successes := 0
          last_transition_time := now }
      else
        { s with consecutive_failures := s.consecutive_failures + 1 }
  | .OPEN => s
  | .HALF_OPEN =>
      { phase := .OPEN
        consecutive_failures := 0
        consecutive_successes := 0
        last_transition_time := now }

/-- Modelled from the spec: `record_success(host)` of the missing
CircuitBreakerRegistry. In HALF_OPEN a success increments
`consecutive_successes` and, on reaching `success_threshold`, transitions
to CLOSED resetting both counters; in CLOSED a success resets the
consecutive failure count. -/
def record_success (cfg : CircuitBreakerConfig) (s : BreakerState) (now : ℚ) :
    BreakerState :=
  match s.phase with
  | .CLOSED => { s with consecutive_failures := 0 }
  | .OPEN => s
  | .HALF_OPEN =>
      if cfg.success_threshold ≤ s.consecutive_successes + 1 then
        { phase := .CLOSED
          consecutive_failures := 0
          consecutive_successes := 0
          last_transition_time := now }
      else
        { s with consecutive_successes := s.consecutive_successes + 1 }

/-- One observable operation on a breaker, tagged with the time at which
it happens. -/
inductive BreakerOp
  | allowReq (now : ℚ)
  | success (now : ℚ)
  | failure (now : ℚ)

/-- The state after one breaker operation. -/
def breakerStep (cfg : CircuitBreakerConfig) (s : BreakerState) :
    BreakerOp → BreakerState
  | .allowReq now => (allow_request cfg s now).2
  | .success now => record_success cfg s now
  | .failure now => record_failure cfg s now

/-- The state after a sequence of breaker operations. -/
def breakerRun (cfg : CircuitBreakerConfig) (s : BreakerState)
    (ops : List BreakerOp) : BreakerState :=
  ops.foldl (breakerStep cfg) s

/-- The transitions the spec permits: the phase is unchanged, or the step
is one of CLOSED to OPEN on a failure reaching the threshold (recording
the time, resetting counters), OPEN to HALF_OPEN on an admission after the
recovery timeout, HALF_OPEN to CLOSED on a success reaching the success
threshold, or HALF_OPEN to OPEN on a failure. -/
def BreakerTransitionAllowed (cfg : CircuitBreakerConfig) (s : BreakerState)
    (op : BreakerOp) (t : BreakerState) : Prop :=
  (t.phase = s.phase) ∨
  (s.phase = .CLOSED ∧ t.phase = .OPEN ∧
    ∃ now, op = .failure now ∧
      cfg.failure_threshold ≤ s.consecutive_failures + 1 ∧
      t.last_transition_time = now ∧
      t.consecutive_failures = 0 ∧ t.consecutive_successes = 0) ∨
  (s.phase = .OPEN ∧ t.phase = .HALF_OPEN ∧
    ∃ now, op = .allowReq now ∧
      s.last_transition_time + cfg.recovery_timeout ≤ now) ∨
  (s.phase = .HALF_OPEN ∧ t.phase = .CLOSED ∧
    ∃ now, op = .success now ∧
      cfg.success_threshold ≤ s.consecutive_successes + 1) ∨
  (s.phase = .HALF_OPEN ∧ t.phase = .OPEN ∧ ∃ now, op = .failure now)

/-! ## Transport collaborator and request executor (spec 4.6, 6) -/

/-- A response descriptor returned by the transport collaborator. -/
structure Response where
  status_code : Nat
deriving DecidableEq, Repr

/-- Outcome of one transport invocation: a response descriptor, or a
transport-error with a classifiable kind. -/
inductive TransportResult
  | ok (resp : Response)
  | exn (kind : String)
deriving DecidableEq, Repr

/-- The error taxonomy of spec section 7 that the executor can surface. -/
inductive ExecError
  | CircuitOpen
  | TransportFailure (kind : String)
  | HTTPStatusFailure (code : Nat)
deriving DecidableEq, Repr

/-- A breaker event recorded by the executor. -/
inductive BreakerEvent
  | failureEvent
  | successEvent
deriving DecidableEq, Repr

/-- A 2xx status code counts as a success. -/
def isSuccessStatus (code : Nat) : Bool :=
  200 ≤ code && code < 300

/-- Result of the retry loop alone: final outcome, number of transport
invocations, number of breaker failures recorded for retried attempts,
and the attempt numbers passed to the transport. -/
structure LoopResult where
  outcome : Except ExecError Response
  calls : Nat
  retriedFailures : Nat
  attemptsTrace : List Nat
deriving Repr

/-- Modelled from the spec: the retry loop (step 5 of the missing
RequestExecutor). `attempt` is the current attempt number, `remaining`
the number of attempts still allowed including the current one. A
retryable transport exception or retryable status with attempts remaining
records a breaker failure and continues; otherwise the attempt is final
(a 2xx success, or a transport / HTTP status error). -/
def retryLoop (p : RetryConfig) (transport : Nat → TransportResult) :
    Nat → Nat → LoopResult
  | _, 0 =>
      { outcome := .error (.TransportFailure "no attempt permitted")
        calls := 0, retriedFailures := 0, attemptsTrace := [] }
  | attempt, remaining + 1 =>
      match transport attempt with
      | .exn kind =>
          if p.retry_on_exceptions.contains kind ∧ remaining ≠ 0 then
            let r := retryLoop p transport (attempt + 1) remaining
            { outcome := r.outcome
              calls := r.calls + 1
              retriedFailures := r.retriedFailures + 1
              attemptsTrace := attempt :: r.attemptsTrace }
          else
            { outcome := .error (.TransportFailure kind)
              calls := 1, retriedFailures := 0, attemptsTrace := [attempt] }
      | .ok resp =>
          if p.retry_on_status_codes.contains resp.status_code ∧ remaining ≠ 0 then
            let r := retryLoop p transport (attempt + 1) remaining
            { outcome := r.outcome
              calls := r.calls + 1
              retriedFailures := r.retriedFailures + 1
              attemptsTrace := attempt :: r.attemptsTrace }
          else if isSuccessStatus resp.status_code then
            { outcome := .ok resp
              calls := 1, retriedFailures := 0, attemptsTrace := [attempt] }
          else
            { outcome := .error (.HTTPStatusFailure resp.status_code)
              calls := 1, retriedFailures := 0, attemptsTrace := [attempt] }

/-- Apply `n` recorded breaker failures. -/
def applyFailures (cfg : CircuitBreakerConfig) (now : ℚ) (s : BreakerState) :
    Nat → BreakerState
  | 0 => s
  | n + 1 => record_failure cfg (applyFailures cfg now s n) now

/-- Result of one `execute`: the outcome delivered to the caller, the
number of transport invocations, the breaker events recorded in order,
the attempt numbers used, and the breaker state afterwards. -/
structure ExecResult where
  outcome : Except ExecError Response
  transport_calls : Nat
  breaker_events : List BreakerEvent
  attemptsTrace : List Nat
  breaker : BreakerState
deriving Repr

/-- Modelled from the spec: `execute` of the missing RequestExecutor
(steps 3, 5 and 6 of the orchestration algorithm; caching and plugins are
modelled separately). The breaker is consulted first: a denial raises
CircuitOpen with no attempt made; otherwise the retry loop runs with
attempts 1..max_attempts, each retried failure records a breaker failure,
and the final outcome records a breaker success or failure. -/
def execute (p : RetryConfig) (cfg : CircuitBreakerConfig)
    (transport : Nat → TransportResult) (now : ℚ) (s : BreakerState) :
    ExecResult :=
  match allow_request cfg s now with
  | (false, s1) =>
      { outcome := .error .CircuitOpen
        transport_calls := 0
        breaker_events := []
        attemptsTrace := []
        breaker := s1 }
  | (true, s1) =>
      let r := retryLoop p transport 1 p.max_attempts
      let s2 := applyFailures cfg now s1 r.retriedFailures
      { outcome := r.outcome
        transport_calls := r.calls
        breaker_events :=
          List.replicate r.retriedFailures .failureEvent ++
            [match r.outcome with
             | .ok _ => .successEvent
             | .error _ => .failureEvent]
        attemptsTrace := r.attemptsTrace
        breaker :=
          match r.outcome with
          | .ok _ => record_success cfg s2 now
          | .error _ => record_failure cfg s2 now }

/-- Run a sequence of executes at the given times, threading the breaker
state, and collect the per-call results. -/
def executeSeq (p : RetryConfig) (cfg : CircuitBreakerConfig)
    (transport : Nat → TransportResult) (s : BreakerState) :
    List ℚ → List ExecResult
  | [] => []
  | now :: rest =>
      let r := execute p cfg transport now s
      r :: executeSeq p cfg transport r.breaker rest

/-! ## Response cache (spec 4.3) -/

/-- Modelled from the spec: one entry of the missing ResponseCache — key,
response snapshot, insertion time and ttl. -/
structure CacheEntry where
  key : String
  resp : Response
  inserted_at : ℚ
  ttl : ℚ
deriving DecidableEq, Repr

/-- Modelled from the spec: the missing ResponseCache — a bounded store,
entries held most-recently-used first. -/
structure ResponseCache where
  max_size : Nat
  entries : List CacheEntry
deriving DecidableEq, Repr

/-- An empty cache of the given capacity. -/
def emptyCache (max_size : Nat) : ResponseCache :=
  { max_size := max_size, entries := [] }

/-- Modelled from the spec: `get(key)` of the missing ResponseCache —
returns the entry if present and `now < inserted_at + ttl`, else empty
(lazy expiry). A live hit refreshes recency; an expired entry is
dropped. -/
def cacheGet (c : ResponseCache) (k : String) (now : ℚ) :
    Option Response × ResponseCache :=
  match c.entries.find? (fun e => e.key == k) with
  | none => (none, c)
  | some e =>
      if now < e.inserted_at + e.ttl then
        (some e.resp,
         { c with entries := e :: c.entries.filter (fun x => !(x.key == k)) })
      else
        (none, { c with entries := c.entries.filter (fun x => !(x.key == k)) })

/-- Modelled from the spec: `put(key, response, ttl)` of the missing
ResponseCache — stores a snapshot at the front; when inserting would
exceed `max_size`, the least-recently-used (last) entries are evicted. -/
def cachePut (c : ResponseCache) (k : String) (v : Response) (ttl now : ℚ) :
    ResponseCache :=
  { c with
      entries :=
        ({ key := k, resp := v, inserted_at := now, ttl := ttl } ::
          c.entries.filter (fun x => !(x.key == k))).take c.max_size }

/-- One observable cache operation. -/
inductive CacheOp
  | put (k : String) (v : Response) (ttl now : ℚ)
  | get (k : String) (now : ℚ)

/-- The cache after one operation. -/
def cacheStep (c : ResponseCache) : CacheOp → ResponseCache
  | .put k v ttl now => cachePut c k v ttl now
  | .get k now => (cacheGet c k now).2

/-- The cache after a sequence of operations. -/
def cacheRunOps (c : ResponseCache) (ops : List CacheOp) : ResponseCache :=
  ops.foldl cacheStep c

/-! ## Plugin pipeline (spec 4.4) -/

/-- Modelled from the spec: a plugin of the missing
`httpwrapper.plugin_system` — a name, an integer priority (lower runs
earlier), and the three optional hooks. A `pre` hook that raises is
modelled as returning an error condition; an `onError` hook that supplies
a replacement returns it. -/
structure Plugin where
  name : String
  priority : Nat
  pre : List (String × String) → Except String (List (String × String))
  post : Response → Response
  onError : String → Option String

/-- A registered plugin: the plugin together with its registration
index. -/
structure PluginRecord where
  plugin : Plugin
  regIndex : Nat

/-- Register plugins in order, assigning registration indices 0, 1, .... -/
def registerAll (ps : List Plugin) : List PluginRecord :=
  ps.enum.map fun pair => { plugin := pair.2, regIndex := pair.1 }

/-- The execution order: ascending priority, ties broken by registration
order. -/
def pluginLe (p q : PluginRecord) : Prop :=
  p.plugin.priority < q.plugin.priority ∨
    (p.plugin.priority = q.plugin.priority ∧ p.regIndex ≤ q.regIndex)

instance : DecidableRel pluginLe := fun p q => by
  unfold pluginLe
  exact inferInstance

instance : IsTotal PluginRecord pluginLe :=
  ⟨fun a b => by unfold pluginLe; omega⟩

instance : IsTrans PluginRecord pluginLe :=
  ⟨fun a b c => by unfold pluginLe; omega⟩

/-- Modelled from the spec: the hook execution order of the missing
PluginPipeline — the stable (insertion) sort of the registered plugins by
`pluginLe`. -/
def executionOrder (regs : List PluginRecord) : List PluginRecord :=
  List.insertionSort pluginLe regs

/-- Modelled from the spec: the `pre_request` chain — each plugin in
order may transform the options; a raising plugin stops the pipeline. -/
def runPreHooks : List PluginRecord → List (String × String) →
    Except String (List (String × String))
  | [], opts => .ok opts
  | r :: rest, opts =>
      match r.plugin.pre opts with
      | .ok opts2 => runPreHooks rest opts2
      | .error e => .error e

/-- Modelled from the spec: the `post_request` chain applied in the same
priority order. -/
def runPostHooks : List PluginRecord → Response → Response
  | [], resp => resp
  | r :: rest, resp => runPostHooks rest (r.plugin.post resp)

/-- Modelled from the spec: the `on_error` chain — the first plugin that
returns a replacement stops the chain; if no plugin replaces the error,
the original propagates. -/
def runOnErrorHooks : List PluginRecord → String → String
  | [], e => e
  | r :: rest, e =>
      match r.plugin.onError e with
      | some repl => repl
      | none => runOnErrorHooks rest e

/-- Modelled from the spec: the plugin-wrapped request path (spec 4.6
steps 4 and 7) — pre hooks, then the transport, then post hooks on
success or the on_error chain on failure; a pre hook abort skips the
transport entirely and goes to the on_error chain. The second component
counts transport invocations. -/
def runPipeline (regs : List PluginRecord)
    (transport : List (String × String) → TransportResult)
    (opts : List (String × String)) : Except String Response × Nat :=
  let ordered := executionOrder regs
  match runPreHooks ordered opts with
  | .error e => (.error (runOnErrorHooks ordered e), 0)
  | .ok opts2 =>
      match transport opts2 with
      | .ok resp => (.ok (runPostHooks ordered resp), 1)
      | .exn kind => (.error (runOnErrorHooks ordered kind), 1)

/-! ## Metrics registry (spec 4.5) -/

/-- Modelled from the spec: the per-host record of the missing
MetricsRegistry — request count, error count, bounded duration samples. -/
structure HostMetrics where
  requests : Nat
  errors : Nat
  durations : List ℚ

/-- Modelled from the spec: derived per-host success rate —
`(requests - errors) / requests x 100`, and 0 when requests = 0. -/
def success_rate_percent (m : HostMetrics) : ℚ :=
  if m.requests = 0 then 0
  else ((m.requests : ℚ) - (m.errors : ℚ)) / (m.requests : ℚ) * 100

/-- Modelled from the spec: derived per-host average duration — the
arithmetic mean of the recorded samples, and 0 when there are none. -/
def average_duration_seconds (m : HostMetrics) : ℚ :=
  if m.durations = [] then 0
  else m.durations.sum / (m.durations.length : ℚ)

/-- Modelled from the spec: the missing MetricsRegistry — per-host
records keyed by host name. -/
structure MetricsRegistry where
  hosts : List (String × HostMetrics)

/-- The derived summary exposed for one host. -/
structure HostSummary where
  requests : Nat
  errors : Nat
  success_rate : ℚ
  average_duration : ℚ
deriving DecidableEq, Repr

/-- The derived summary of one host record. -/
def hostSummary (m : HostMetrics) : HostSummary :=
  { requests := m.requests
    errors := m.errors
    success_rate := success_rate_percent m
    average_duration := average_duration_seconds m }

/-- Modelled from the spec: the per-host part of `get_metrics()` of the
missing engine — summaries keyed `host_<name>`. -/
def get_metrics_hosts (r : MetricsRegistry) : List (String × HostSummary) :=
  r.hosts.map fun p => ("host_" ++ p.1, hostSummary p.2)

/-- Modelled from the spec: the aggregate record behind the summary map
of `get_metrics()` of the missing engine — total request and error
counts over all hosts and all recorded duration samples. -/
def totalMetrics (r : MetricsRegistry) : HostMetrics :=
  { requests := (r.hosts.map (fun p => p.2.requests)).sum
    errors := (r.hosts.map (fun p => p.2.errors)).sum
    durations := (r.hosts.map (fun p => p.2.durations)).flatten }

/-- The full inspection surface: a summary map and the per-host maps. -/
structure MetricsReport where
  summary : HostSummary
  hosts : List (String × HostSummary)

/-- Modelled from the spec: `get_metrics()` of the missing engine —
`{summary: {...}, hosts: {host_<name>: {...}}}`, the summary derived
from the aggregated totals. -/
def get_metrics (r : MetricsRegistry) : MetricsReport :=
  { summary := hostSummary (totalMetrics r)
    hosts := get_metrics_hosts r }

/-! ## AuthPlugin.pre_request (from `example_usage_plugin_system.py`) -/

/-- Keyword options passed to `pre_request`: the optional `headers`
mapping (none when the key is absent) and the remaining options. -/
structure Kwargs where
  headers : Option (List (String × String))
  rest : List (String × String)
deriving DecidableEq, Repr

/-- Python dict assignment `d[k] = v`: update the first binding of `k` in
place, else append the new binding. -/
def setHeader : List (String × String) → String → String →
    List (String × String)
  | [], k, v => [(k, v)]
  | p :: restl, k, v =>
      if p.1 == k then (k, v) :: restl else p :: setHeader restl k v

/-- Python dict lookup `d.get(k)`. -/
def lookupHeader (l : List (String × String)) (k : String) : Option String :=
  (l.find? (fun p => p.1 == k)).map (fun p => p.2)

/-- The fields of `AuthPlugin` set by `initialize`. -/
structure AuthPluginState where
  api_key : String
  auth_method : String

/-- Embedding of `AuthPlugin.pre_request` (source lines 37-51): when
`api_key` is falsy the kwargs are returned unchanged; otherwise the
headers mapping (defaulting to empty) gains `Authorization: Bearer <key>`
for the Bearer method or `X-API-Key: <key>` for the API-Key method, and
is stored back under the `headers` key. -/
def AuthPlugin.pre_request (st : AuthPluginState) (kwargs : Kwargs) : Kwargs :=
  if st.api_key = "" then kwargs
  else
    let headers := kwargs.headers.getD []
    let headers2 :=
      if st.auth_method = "Bearer" then
        setHeader headers "Authorization" ("Bearer " ++ st.api_key)
      else if st.auth_method = "API-Key" then
        setHeader headers "X-API-Key" st.api_key
      else headers
    { kwargs with headers := some headers2 }

/-! ## Theorems -/

theorem breakerStep_allowed (cfg : CircuitBreakerConfig) (s : BreakerState)
    (op : BreakerOp) :
    BreakerTransitionAllowed cfg s op (breakerStep cfg s op) := by
  obtain ⟨ph, cf, cs, t⟩ := s
  cases op with
  | allowReq now =>
      cases ph with
      | CLOSED => exact Or.inl rfl
      | OPEN =>
          by_cases h : t + cfg.recovery_timeout ≤ now
          · refine Or.inr (Or.inr (Or.inl ⟨rfl, ?_, now, rfl, h⟩))
            simp [breakerStep, allow_request, h]
          · exact Or.inl (by simp [breakerStep, allow_request, h])
      | HALF_OPEN => exact Or.inl rfl
  | success now =>
      cases ph with
      | CLOSED => exact Or.inl rfl
      | OPEN => exact Or.inl rfl
      | HALF_OPEN =>
          by_cases h : cfg.success_threshold ≤ cs + 1
          · refine Or.inr (Or.inr (Or.inr (Or.inl ⟨rfl, ?_, now, rfl, h⟩)))
            simp [breakerStep, record_success, h]
          · exact Or.inl (by simp [breakerStep, record_success, h])
  | failure now =>
      cases ph with
      | CLOSED =>
          by_cases h : cfg.failure_threshold ≤ cf + 1
          · refine Or.inr (Or.inl ⟨rfl, ?_, now, rfl, h, ?_, ?_, ?_⟩) <;>
              simp [breakerStep, record_failure, h]
          · exact Or.inl (by simp [breakerStep, record_failure, h])
      | OPEN => exact Or.inl rfl
      | HALF_OPEN =>
          exact Or.inr (Or.inr (Or.inr (Or.inr
            ⟨rfl, by simp [breakerStep, record_failure], now, rfl⟩)))

/-- Claim C1: the per-host breaker transitions only as the spec permits —
CLOSED to OPEN exactly when the incremented consecutive failure count
reaches `failure_threshold` (recording the time, resetting counters),
OPEN to HALF_OPEN only once `recovery_timeout` has elapsed since the
transition time, HALF_OPEN to CLOSED only when the consecutive success
count reaches `success_threshold`, HALF_OPEN back to OPEN on any failure;
along every operation sequence no other transition is reachable, and each
threshold transition is forced when its trigger holds. -/
theorem breaker_transitions (cfg : CircuitBreakerConfig) (s : BreakerState) :
    (∀ op, BreakerTransitionAllowed cfg s op (breakerStep cfg s op)) ∧
    (∀ ops op, BreakerTransitionAllowed cfg (breakerRun cfg s ops) op
        (breakerRun cfg s (ops ++ [op]))) ∧
    (∀ now, s.phase = .CLOSED →
        cfg.failure_threshold ≤ s.consecutive_failures + 1 →
        (breakerStep cfg s (.failure now)).phase = .OPEN) ∧
    (∀ now, s.phase = .OPEN →
        s.last_transition_time + cfg.recovery_timeout ≤ now →
        (breakerStep cfg s (.allowReq now)).phase = .HALF_OPEN) ∧
    (∀ now, s.phase = .HALF_OPEN →
        cfg.success_threshold ≤ s.consecutive_successes + 1 →
        (breakerStep cfg s (.success now)).phase = .CLOSED) ∧
    (∀ now, s.phase = .HALF_OPEN →
        (breakerStep cfg s (.failure now)).phase = .OPEN) := by
  refine ⟨fun op => breakerStep_allowed cfg s op, ?_, ?_, ?_, ?_, ?_⟩
  · intro ops op
    have h : breakerRun cfg s (ops ++ [op]) =
        breakerStep cfg (breakerRun cfg s ops) op := by
      simp [breakerRun, List.foldl_append]
    rw [h]
    exact breakerStep_allowed cfg _ op
  · intro now hph hthr
    obtain ⟨ph, cf, cs, t⟩ := s
    cases ph <;> simp_all [breakerStep, record_failure]
  · intro now hph helapsed
    obtain ⟨ph, cf, cs, t⟩ := s
    cases ph <;> simp_all [breakerStep, allow_request]
  · intro now hph hthr
    obtain ⟨ph, cf, cs, t⟩ := s
    cases ph <;> simp_all [breakerStep, record_success]
  · intro now hph
    obtain ⟨ph, cf, cs, t⟩ := s
    cases ph <;> simp_all [breakerStep, record_failure]

theorem breaker_transitions_witness :
    BreakerTransitionAllowed ⟨2, 30, 1⟩ ⟨.CLOSED, 1, 0, 0⟩ (.failure 5)
      (breakerStep ⟨2, 30, 1⟩ ⟨.CLOSED, 1, 0, 0⟩ (.failure 5)) ∧
    (breakerStep ⟨2, 30, 1⟩ ⟨.CLOSED, 1, 0, 0⟩ (.failure 5)).phase = .OPEN :=
  ⟨(breaker_transitions ⟨2, 30, 1⟩ ⟨.CLOSED, 1, 0, 0⟩).1 (.failure 5),
   (breaker_transitions ⟨2, 30, 1⟩ ⟨.CLOSED, 1, 0, 0⟩).2.2.1 5 rfl
     (by decide)⟩

/-- Claim C8: `compute_delay` yields the raw delay `backoff_factor` for
FIXED, `backoff_factor x attempt` for LINEAR and
`backoff_factor x 2^(attempt-1)` for EXPONENTIAL for every attempt n at
least 1; with `max_delay` set the raw delay is capped at `max_delay`, and
the pre-jitter EXPONENTIAL delay at attempt n is
`backoff_factor x 2^(n-1)`. -/
theorem compute_delay_spec (p : RetryConfig) (n : Nat) (_hn : 1 ≤ n) :
    (p.backoff_strategy = .FIXED →
      rawDelay p.backoff_strategy p.backoff_factor n = p.backoff_factor) ∧
    (p.backoff_strategy = .LINEAR →
      rawDelay p.backoff_strategy p.backoff_factor n =
        p.backoff_factor * n) ∧
    (p.backoff_strategy = .EXPONENTIAL →
      rawDelay p.backoff_strategy p.backoff_factor n =
        p.backoff_factor * 2 ^ (n - 1)) ∧
    (p.max_delay = none →
      compute_delay n p = rawDelay p.backoff_strategy p.backoff_factor n) ∧
    (∀ m, p.max_delay = some m →
      compute_delay n p =
        min (rawDelay p.backoff_strategy p.backoff_factor n) m ∧
      compute_delay n p ≤ m) := by
  refine ⟨?_, ?_, ?_, ?_, ?_⟩
  · intro h; rw [h]; rfl
  · intro h; rw [h]; rfl
  · intro h; rw [h]; rfl
  · intro h; simp [compute_delay, h]
  · intro m h
    refine ⟨by simp [compute_delay, h], ?_⟩
    simp [compute_delay, h]

theorem compute_delay_spec_witness :
    rawDelay BackoffStrategy.EXPONENTIAL (1 / 2) 4 = 4 ∧
    compute_delay 4
      ⟨3, .EXPONENTIAL, 1 / 2, some 3, true, [], []⟩ ≤ 3 := by
  have h := compute_delay_spec ⟨3, .EXPONENTIAL, 1 / 2, some 3, true, [], []⟩
    4 (by decide)
  refine ⟨?_, (h.2.2.2.2 3 rfl).2⟩
  have h3 := h.2.2.1 rfl
  rw [h3]
  norm_num

theorem retryLoop_calls_le (p : RetryConfig) (transport : Nat → TransportResult) :
    ∀ remaining attempt, (retryLoop p transport attempt remaining).calls ≤ remaining := by
  intro remaining
  induction remaining with
  | zero => intro attempt; simp [retryLoop]
  | succ n ih =>
      intro attempt
      simp only [retryLoop]
      cases htr : transport attempt with
      | exn kind =>
          dsimp only
          split
          · dsimp only
            have := ih (attempt + 1)
            omega
          · dsimp only
            omega
      | ok resp =>
          dsimp only
          split
          · dsimp only
            have := ih (attempt + 1)
            omega
          · split <;> dsimp only <;> omega

theorem retryLoop_trace_bounds (p : RetryConfig) (transport : Nat → TransportResult) :
    ∀ remaining attempt a,
      a ∈ (retryLoop p transport attempt remaining).attemptsTrace →
      attempt ≤ a ∧ a < attempt + remaining := by
  intro remaining
  induction remaining with
  | zero => intro attempt a h; simp [retryLoop] at h
  | succ n ih =>
      intro attempt a h
      simp only [retryLoop] at h
      revert h
      cases htr : transport attempt with
      | exn kind =>
          dsimp only
          split
          · dsimp only
            intro h
            rcases List.mem_cons.mp h with rfl | h
            · omega
            · have := ih (attempt + 1) a h
              omega
          · dsimp only
            intro h
            rcases List.mem_singleton.mp h with rfl
            omega
      | ok resp =>
          dsimp only
          split
          · dsimp only
            intro h
            rcases List.mem_cons.mp h with rfl | h
            · omega
            · have := ih (attempt + 1) a h
              omega
          · split <;> dsimp only <;> intro h <;>
              rcases List.mem_singleton.mp h with rfl <;> omega

/-- Claim C2: while the breaker is OPEN and the recovery timeout has not
elapsed since the transition time, `execute` fails with CircuitOpen, the
transport is never invoked and no retry attempt is spent; concretely,
with failure_threshold 2 and a transport that always fails, the breaker
opens after the second recorded failure and the third call fails
immediately with CircuitOpen without a transport invocation. -/
theorem circuit_open_fail_fast (p : RetryConfig) (cfg : CircuitBreakerConfig)
    (transport : Nat → TransportResult) (now : ℚ) (s : BreakerState)
    (hopen : s.phase = .OPEN)
    (hearly : now < s.last_transition_time + cfg.recovery_timeout) :
    ((execute p cfg transport now s).outcome = .error .CircuitOpen ∧
      (execute p cfg transport now s).transport_calls = 0 ∧
      (execute p cfg transport now s).attemptsTrace = [] ∧
      (execute p cfg transport now s).breaker = s) ∧
    (executeSeq ⟨1, .FIXED, 0, none, false, [], ["ConnectionError"]⟩ ⟨2, 30, 1⟩
        (fun _ => .exn "ConnectionError") initialBreaker [0, 1, 2]).map
        (fun r => (r.outcome, r.transport_calls, r.breaker.phase)) =
      [(.error (.TransportFailure "ConnectionError"), 1, .CLOSED),
       (.error (.TransportFailure "ConnectionError"), 1, .OPEN),
       (.error .CircuitOpen, 0, .OPEN)] := by
  constructor
  · have hdeny : allow_request cfg s now = (false, s) := by
      obtain ⟨ph, cf, cs, t⟩ := s
      cases ph with
      | CLOSED => simp at hopen
      | OPEN =>
          simp only [allow_request]
          rw [if_neg]
          simp only at hearly
          exact not_le.mpr hearly
      | HALF_OPEN => simp at hopen
    simp [execute, hdeny]
  · norm_num [executeSeq, execute, retryLoop, allow_request, record_failure,
      record_success, applyFailures, initialBreaker]

theorem circuit_open_fail_fast_witness :
    (execute ⟨3, .FIXED, 0, none, false, [], []⟩ ⟨2, 30, 1⟩
        (fun _ => .ok ⟨200⟩) 5 ⟨.OPEN, 0, 0, 0⟩).outcome =
      .error .CircuitOpen ∧
    (execute ⟨3, .FIXED, 0, none, false, [], []⟩ ⟨2, 30, 1⟩
        (fun _ => .ok ⟨200⟩) 5 ⟨.OPEN, 0, 0, 0⟩).transport_calls = 0 := by
  have h := circuit_open_fail_fast ⟨3, .FIXED, 0, none, false, [], []⟩
    ⟨2, 30, 1⟩ (fun _ => .ok ⟨200⟩) 5 ⟨.OPEN, 0, 0, 0⟩ rfl (by norm_num)
  exact ⟨h.1.1, h.1.2.1⟩

/-- Claim C3: with max_attempts 3, FIXED strategy and factor 0 against a
transport that fails retryably on attempts 1 and 2 and succeeds on
attempt 3, the final response reaches the caller, the transport is called
exactly 3 times and the breaker records two failures then one success; in
general the attempt numbers lie in 1..max_attempts and the transport is
invoked at most max_attempts times per execute. -/
theorem retry_scenario (p : RetryConfig) (cfg : CircuitBreakerConfig)
    (transport : Nat → TransportResult) (now : ℚ) (s : BreakerState) :
    ((execute p cfg transport now s).transport_calls ≤ p.max_attempts ∧
      ∀ a ∈ (execute p cfg transport now s).attemptsTrace,
        1 ≤ a ∧ a ≤ p.max_attempts) ∧
    (fun r => (r.outcome, r.transport_calls, r.breaker_events, r.attemptsTrace))
        (execute ⟨3, .FIXED, 0, none, false, [500], ["Timeout"]⟩ ⟨5, 30, 1⟩
          (fun n => if n ≤ 2 then .exn "Timeout" else .ok ⟨200⟩) 0
          initialBreaker) =
      (.ok ⟨200⟩, 3, [.failureEvent, .failureEvent, .successEvent],
        [1, 2, 3]) := by
  constructor
  · constructor
    · unfold execute
      split
      · simp
      · dsimp only
        exact retryLoop_calls_le p transport p.max_attempts 1
    · intro a ha
      unfold execute at ha
      split at ha
      · simp at ha
      · dsimp only at ha
        have := retryLoop_trace_bounds p transport p.max_attempts 1 a ha
        omega
  · norm_num [execute, retryLoop, allow_request, record_failure,
      record_success, applyFailures, initialBreaker, isSuccessStatus,
      List.replicate_succ]

theorem retry_scenario_witness :
    (execute ⟨2, .FIXED, 0, none, false, [], []⟩ ⟨2, 30, 1⟩
        (fun _ => .ok ⟨200⟩) 0 initialBreaker).transport_calls ≤ 2 ∧
    (1 ∈ (execute ⟨2, .FIXED, 0, none, false, [], []⟩ ⟨2, 30, 1⟩
        (fun _ => .ok ⟨200⟩) 0 initialBreaker).attemptsTrace → (1:Nat) ≤ 2) := by
  have h := (retry_scenario ⟨2, .FIXED, 0, none, false, [], []⟩ ⟨2, 30, 1⟩
    (fun _ => .ok ⟨200⟩) 0 initialBreaker).1
  exact ⟨h.1, fun hm => (h.2 1 hm).2⟩

/-- Claim C4: after `put(k, v, ttl)` a `get(k)` strictly before
`inserted_at + ttl` returns v unchanged and a `get(k)` at or after
`inserted_at + ttl` returns empty (for a cache with capacity at least 1);
moreover no entry is ever served past its ttl — a hit always comes from a
stored entry whose ttl has not elapsed. -/
theorem cache_roundtrip :
    (∀ (c : ResponseCache) (k : String) (v : Response) (ttl t0 t : ℚ),
        1 ≤ c.max_size →
        (cacheGet (cachePut c k v ttl t0) k t).1 =
          if t < t0 + ttl then some v else none) ∧
    (∀ (c : ResponseCache) (k : String) (now : ℚ) (r : Response),
        (cacheGet c k now).1 = some r →
        ∃ e ∈ c.entries, e.key = k ∧ e.resp = r ∧
          now < e.inserted_at + e.ttl) := by
  constructor
  · intro c k v ttl t0 t h
    obtain ⟨ms, es⟩ := c
    simp only at h
    obtain ⟨m, rfl⟩ : ∃ m, ms = m + 1 := ⟨ms - 1, by omega⟩
    simp only [cachePut, cacheGet, List.take_succ_cons]
    rw [List.find?_cons_of_pos _ (by simp)]
    dsimp only
    split <;> simp [*]
  · intro c k now r h
    unfold cacheGet at h
    cases hfind : c.entries.find? (fun e => e.key == k) with
    | none => rw [hfind] at h; simp at h
    | some e =>
        rw [hfind] at h
        dsimp only at h
        split at h
        · refine ⟨e, List.mem_of_find?_eq_some hfind, ?_, ?_, by assumption⟩
          · simpa using List.find?_some hfind
          · simpa using h
        · simp at h

theorem cache_roundtrip_witness :
    (cacheGet (cachePut (emptyCache 1) "A" ⟨200⟩ 10 0) "A" 5).1 =
      some ⟨200⟩ := by
  have h := cache_roundtrip.1 (emptyCache 1) "A" ⟨200⟩ 10 0 5
    (by norm_num [emptyCache])
  rw [h]
  norm_num

theorem cachePut_length (c : ResponseCache) (k : String) (v : Response)
    (ttl now : ℚ) :
    (cachePut c k v ttl now).entries.length ≤ c.max_size := by
  simp only [cachePut, List.length_take]
  exact min_le_left _ _

theorem cachePut_max_size (c : ResponseCache) (k : String) (v : Response)
    (ttl now : ℚ) : (cachePut c k v ttl now).max_size = c.max_size := rfl

theorem cacheGet_length (c : ResponseCache) (k : String) (now : ℚ) :
    ((cacheGet c k now).2).entries.length ≤ c.entries.length := by
  unfold cacheGet
  cases hfind : c.entries.find? (fun e => e.key == k) with
  | none => simp
  | some e =>
      dsimp only
      have hmem := List.mem_of_find?_eq_some hfind
      have hp := List.find?_some hfind
      have hlt : (c.entries.filter (fun x => !(x.key == k))).length <
          c.entries.length := by
        refine List.length_filter_lt_length_iff_exists.mpr ⟨e, hmem, ?_⟩
        simp_all
      split <;> simp <;> omega

theorem cacheGet_max_size (c : ResponseCache) (k : String) (now : ℚ) :
    ((cacheGet c k now).2).max_size = c.max_size := by
  unfold cacheGet
  cases hfind : c.entries.find? (fun e => e.key == k) with
  | none => rfl
  | some e =>
      dsimp only
      split <;> rfl

/-- Claim C5: the cache never holds more than `max_size` entries along
any operation sequence, when a full cache takes a fresh key the
least-recently-used (oldest-recency, last) entry is the one evicted, and
with `max_size` 1 inserting key A then key B evicts A: `get(A)` returns
empty while `get(B)` returns the stored response for B. -/
theorem cache_capacity_lru :
    (∀ (c : ResponseCache) (ops : List CacheOp),
        c.entries.length ≤ c.max_size →
        (cacheRunOps c ops).entries.length ≤ c.max_size ∧
        (cacheRunOps c ops).max_size = c.max_size) ∧
    (∀ (c : ResponseCache) (k : String) (v : Response) (ttl now : ℚ),
        1 ≤ c.max_size →
        c.entries.length = c.max_size →
        (∀ e ∈ c.entries, e.key ≠ k) →
        (cachePut c k v ttl now).entries =
          { key := k, resp := v, inserted_at := now, ttl := ttl } ::
            c.entries.dropLast) ∧
    ((cacheGet (cachePut (cachePut (emptyCache 1) "A" ⟨200⟩ 100 0)
        "B" ⟨201⟩ 100 1) "A" 2).1 = none ∧
      (cacheGet (cachePut (cachePut (emptyCache 1) "A" ⟨200⟩ 100 0)
        "B" ⟨201⟩ 100 1) "B" 2).1 = some ⟨201⟩ ∧
      (cachePut (cachePut (emptyCache 1) "A" ⟨200⟩ 100 0)
        "B" ⟨201⟩ 100 1).entries.length = 1) := by
  refine ⟨?_, ?_, ?_, ?_, ?_⟩
  · intro c ops
    induction ops generalizing c with
    | nil => intro h; exact ⟨h, rfl⟩
    | cons op rest ih =>
        intro h
        have hstep : (cacheStep c op).entries.length ≤ c.max_size ∧
            (cacheStep c op).max_size = c.max_size := by
          cases op with
          | put k v ttl now =>
              exact ⟨cachePut_length c k v ttl now, rfl⟩
          | get k now =>
              exact ⟨le_trans (cacheGet_length c k now) h,
                cacheGet_max_size c k now⟩
        have := ih (cacheStep c op) (hstep.2 ▸ hstep.1)
        simpa [cacheRunOps, hstep.2] using this
  · intro c k v ttl now hcap hfull hfresh
    have hfil : c.entries.filter (fun x => !(x.key == k)) = c.entries := by
      refine List.filter_eq_self.mpr ?_
      intro e he
      simpa using hfresh e he
    obtain ⟨m, hm⟩ : ∃ m, c.max_size = m + 1 := ⟨c.max_size - 1, by omega⟩
    simp only [cachePut, hfil, hm, List.take_succ_cons,
      List.dropLast_eq_take, hfull]
    simp
  · norm_num [cacheGet, cachePut, emptyCache, List.find?_cons_of_pos,
      List.find?_cons_of_neg, List.filter_cons]
    try simp
  · norm_num [cacheGet, cachePut, emptyCache, List.find?_cons_of_pos,
      List.find?_cons_of_neg, List.filter_cons]
    try simp
  · norm_num [cachePut, emptyCache, List.filter_cons]

theorem cache_capacity_lru_witness :
    (cacheRunOps (emptyCache 1)
      [.put "A" ⟨200⟩ 100 0, .put "B" ⟨201⟩ 100 1]).entries.length ≤ 1 :=
  (cache_capacity_lru.1 (emptyCache 1)
    [.put "A" ⟨200⟩ 100 0, .put "B" ⟨201⟩ 100 1] (by simp [emptyCache])).1

/-- Claim C6: the pre_request / post_request hook execution order is the
stable sort of the registered plugins by ascending priority with ties
broken by registration order — the order is a permutation of the
registered plugins, sorted under the priority-then-registration-index
order, registration indices being assigned 0, 1, ... in registration
order; in particular registering priorities [10, 5, 20] yields execution
order [5, 10, 20]. -/
theorem plugin_order (ps : List Plugin) :
    (executionOrder (registerAll ps)).Perm (registerAll ps) ∧
    List.Sorted pluginLe (executionOrder (registerAll ps)) ∧
    (registerAll ps).map PluginRecord.regIndex = List.range ps.length ∧
    (executionOrder (registerAll
        [{ name := "a", priority := 10, pre := fun o => .ok o, post := id,
           onError := fun _ => none },
         { name := "b", priority := 5, pre := fun o => .ok o, post := id,
           onError := fun _ => none },
         { name := "c", priority := 20, pre := fun o => .ok o, post := id,
           onError := fun _ => none }])).map
      (fun r => (r.plugin.name, r.plugin.priority)) =
      [("b", 5), ("a", 10), ("c", 20)] := by
  refine ⟨List.perm_insertionSort pluginLe (registerAll ps),
    List.sorted_insertionSort pluginLe (registerAll ps), ?_, ?_⟩
  · have hcomp :
        (fun pair => ({ plugin := pair.2, regIndex := pair.1 } :
          PluginRecord).regIndex) = (Prod.fst : Nat × Plugin → Nat) := rfl
    simp [registerAll, List.map_map, Function.comp_def, hcomp]
  · rfl

theorem runOnErrorHooks_all_none (l : List PluginRecord) (e : String)
    (h : ∀ r ∈ l, r.plugin.onError e = none) : runOnErrorHooks l e = e := by
  induction l with
  | nil => rfl
  | cons r rest ih =>
      have hre := h r (List.mem_cons_self r rest)
      simp only [runOnErrorHooks, hre]
      exact ih (fun q hq => h q (List.mem_cons_of_mem r hq))

theorem runOnErrorHooks_first (pre0 : List PluginRecord) (r : PluginRecord)
    (rest0 : List PluginRecord) (e repl : String)
    (hpre : ∀ q ∈ pre0, q.plugin.onError e = none)
    (hr : r.plugin.onError e = some repl) :
    runOnErrorHooks (pre0 ++ r :: rest0) e = repl := by
  induction pre0 with
  | nil => simp only [List.nil_append, runOnErrorHooks, hr]
  | cons q qs ih =>
      have hq := hpre q (List.mem_cons_self q qs)
      simp only [List.cons_append, runOnErrorHooks, hq]
      exact ih (fun x hx => hpre x (List.mem_cons_of_mem q hx))

/-- Claim C7: when a pre_request plugin raises, the request is aborted
with zero transport invocations, the on_error chain is invoked with the
raised condition, and the error reaching the caller is the first
plugin-supplied replacement, or the original raised error when no plugin
replaces it. -/
theorem plugin_abort_aborts (regs : List PluginRecord)
    (transport : List (String × String) → TransportResult)
    (opts : List (String × String)) (e : String)
    (habort : runPreHooks (executionOrder regs) opts = .error e) :
    (runPipeline regs transport opts).2 = 0 ∧
    (runPipeline regs transport opts).1 =
      .error (runOnErrorHooks (executionOrder regs) e) ∧
    ((∀ r ∈ executionOrder regs, r.plugin.onError e = none) →
      (runPipeline regs transport opts).1 = .error e) ∧
    (∀ pre0 r rest0 repl, executionOrder regs = pre0 ++ r :: rest0 →
      (∀ q ∈ pre0, q.plugin.onError e = none) →
      r.plugin.onError e = some repl →
      (runPipeline regs transport opts).1 = .error repl) := by
  have hpair : runPipeline regs transport opts =
      (.error (runOnErrorHooks (executionOrder regs) e), 0) := by
    simp only [runPipeline, habort]
  refine ⟨by rw [hpair], by rw [hpair], ?_, ?_⟩
  · intro hnone
    rw [hpair]
    simp only [runOnErrorHooks_all_none (executionOrder regs) e hnone]
  · intro pre0 r rest0 repl hsplit hpre hr
    rw [hpair, hsplit]
    simp only [runOnErrorHooks_first pre0 r rest0 e repl hpre hr]

theorem plugin_abort_aborts_witness :
    (runPipeline (registerAll
        [{ name := "aborter", priority := 1, pre := fun _ => .error "boom",
           post := id, onError := fun _ => none }])
      (fun _ => .ok ⟨200⟩) []).2 = 0 ∧
    (runPipeline (registerAll
        [{ name := "aborter", priority := 1, pre := fun _ => .error "boom",
           post := id, onError := fun _ => none }])
      (fun _ => .ok ⟨200⟩) []).1 = .error "boom" := by
  have h := plugin_abort_aborts (registerAll
      [{ name := "aborter", priority := 1, pre := fun _ => .error "boom",
         post := id, onError := fun _ => none }])
    (fun _ => .ok ⟨200⟩) [] "boom" rfl
  exact ⟨h.1, by rw [h.2.1]; rfl⟩

/-- Claim C9: for every host the summary satisfies
`success_rate_percent = (requests - errors) / requests x 100` with value
0 when requests = 0, and `average_duration_seconds` is the arithmetic
mean of the recorded samples with value 0 when there are none; the
metrics inspection surface `get_metrics()` exposes a summary map whose
totals aggregate all hosts and satisfy those same formulas, and per-host
maps keyed `host_<name>`. -/
theorem metrics_summary (m : HostMetrics) :
    (m.requests = 0 → success_rate_percent m = 0) ∧
    (m.requests ≠ 0 →
      success_rate_percent m =
        ((m.requests : ℚ) - (m.errors : ℚ)) / (m.requests : ℚ) * 100) ∧
    (m.durations = [] → average_duration_seconds m = 0) ∧
    (m.durations ≠ [] →
      average_duration_seconds m * (m.durations.length : ℚ) =
        m.durations.sum) ∧
    (∀ r : MetricsRegistry,
      (get_metrics r).hosts =
        r.hosts.map (fun p => ("host_" ++ p.1, hostSummary p.2)) ∧
      (get_metrics r).hosts.map Prod.fst =
        r.hosts.map (fun p => "host_" ++ p.1) ∧
      (get_metrics r).summary.requests =
        (r.hosts.map (fun p => p.2.requests)).sum ∧
      (get_metrics r).summary.errors =
        (r.hosts.map (fun p => p.2.errors)).sum ∧
      ((get_metrics r).summary.requests = 0 →
        (get_metrics r).summary.success_rate = 0) ∧
      ((get_metrics r).summary.requests ≠ 0 →
        (get_metrics r).summary.success_rate =
          (((get_metrics r).summary.requests : ℚ) -
              ((get_metrics r).summary.errors : ℚ)) /
            ((get_metrics r).summary.requests : ℚ) * 100) ∧
      ((totalMetrics r).durations = [] →
        (get_metrics r).summary.average_duration = 0) ∧
      ((totalMetrics r).durations ≠ [] →
        (get_metrics r).summary.average_duration *
            ((totalMetrics r).durations.length : ℚ) =
          (totalMetrics r).durations.sum)) := by
  refine ⟨?_, ?_, ?_, ?_, ?_⟩
  · intro h; simp [success_rate_percent, h]
  · intro h; simp [success_rate_percent, h]
  · intro h; simp [average_duration_seconds, h]
  · intro h
    have hlen : (m.durations.length : ℚ) ≠ 0 := by
      simpa [List.length_eq_zero] using h
    simp only [average_duration_seconds, if_neg h]
    exact div_mul_cancel₀ _ hlen
  · intro r
    refine ⟨rfl, ?_, rfl, rfl, ?_, ?_, ?_, ?_⟩
    · simp [get_metrics, get_metrics_hosts]
    · intro h
      have h0 : (totalMetrics r).requests = 0 := h
      show success_rate_percent (totalMetrics r) = 0
      simp [success_rate_percent, h0]
    · intro h
      have h0 : (totalMetrics r).requests ≠ 0 := h
      show success_rate_percent (totalMetrics r) =
        (((totalMetrics r).requests : ℚ) - ((totalMetrics r).errors : ℚ)) /
          ((totalMetrics r).requests : ℚ) * 100
      simp [success_rate_percent, h0]
    · intro h
      show average_duration_seconds (totalMetrics r) = 0
      simp [average_duration_seconds, h]
    · intro h
      have hlen : ((totalMetrics r).durations.length : ℚ) ≠ 0 := by
        simpa [List.length_eq_zero] using h
      show average_duration_seconds (totalMetrics r) *
          ((totalMetrics r).durations.length : ℚ) =
        (totalMetrics r).durations.sum
      simp only [average_duration_seconds, if_neg h]
      exact div_mul_cancel₀ _ hlen

theorem metrics_summary_witness :
    success_rate_percent ⟨4, 1, [2, 4]⟩ = 75 ∧
    average_duration_seconds ⟨4, 1, [2, 4]⟩ * 2 = 6 ∧
    (get_metrics ⟨[("api", ⟨3, 1, [2]⟩), ("cdn", ⟨1, 0, [4]⟩)]⟩).summary.requests
      = 4 ∧
    (get_metrics ⟨[("api", ⟨3, 1, [2]⟩), ("cdn", ⟨1, 0, [4]⟩)]⟩).summary.success_rate
      = 75 ∧
    (get_metrics ⟨[("api", ⟨3, 1, [2]⟩), ("cdn", ⟨1, 0, [4]⟩)]⟩).hosts.map Prod.fst
      = ["host_api", "host_cdn"] := by
  have h := metrics_summary ⟨4, 1, [2, 4]⟩
  have hr := h.2.2.2.2 ⟨[("api", ⟨3, 1, [2]⟩), ("cdn", ⟨1, 0, [4]⟩)]⟩
  refine ⟨?_, ?_, ?_, ?_, ?_⟩
  · rw [h.2.1 (by decide)]
    norm_num
  · have h4 := h.2.2.2.1 (by simp)
    norm_num at h4
    convert h4 using 2
  · rw [hr.2.2.1]
    rfl
  · rw [hr.2.2.2.2.2.1 (by rw [hr.2.2.1]; decide)]
    rw [hr.2.2.1, hr.2.2.2.1]
    norm_num
  · rw [hr.2.1]
    rfl

theorem lookupHeader_setHeader_self (l : List (String × String))
    (k v : String) : lookupHeader (setHeader l k v) k = some v := by
  induction l with
  | nil => simp [setHeader, lookupHeader]
  | cons p rest ih =>
      by_cases hp : (p.1 == k) = true
      · simp only [setHeader, if_pos hp, lookupHeader]
        rw [@List.find?_cons_of_pos _ (fun q => q.1 == k) (k, v) rest
          (by simp)]
        rfl
      · simp only [setHeader, if_neg hp, lookupHeader]
        rw [@List.find?_cons_of_neg _ (fun q => q.1 == k) p
          (setHeader rest k v) hp]
        simpa [lookupHeader] using ih

theorem lookupHeader_setHeader_other (l : List (String × String))
    (k v k2 : String) (h : k2 ≠ k) :
    lookupHeader (setHeader l k v) k2 = lookupHeader l k2 := by
  have hkk2 : ¬ ((k : String) == k2) = true := by
    simp only [beq_iff_eq]
    exact fun heq => h heq.symm
  induction l with
  | nil =>
      simp only [setHeader, lookupHeader, List.find?_nil]
      rw [@List.find?_cons_of_neg _ (fun q => q.1 == k2) (k, v) [] hkk2]
      simp
  | cons p rest ih =>
      by_cases hp : (p.1 == k) = true
      · have hpk : p.1 = k := by simpa using hp
        have h2 : ¬ (p.1 == k2) = true := by
          simp only [beq_iff_eq, hpk]
          exact fun heq => h heq.symm
        simp only [setHeader, if_pos hp, lookupHeader]
        rw [@List.find?_cons_of_neg _ (fun q => q.1 == k2) (k, v) rest hkk2,
          @List.find?_cons_of_neg _ (fun q => q.1 == k2) p rest h2]
      · simp only [setHeader, if_neg hp, lookupHeader]
        by_cases hp2 : (p.1 == k2) = true
        · rw [@List.find?_cons_of_pos _ (fun q => q.1 == k2) p
            (setHeader rest k v) hp2,
            @List.find?_cons_of_pos _ (fun q => q.1 == k2) p rest hp2]
        · rw [@List.find?_cons_of_neg _ (fun q => q.1 == k2) p
            (setHeader rest k v) hp2,
            @List.find?_cons_of_neg _ (fun q => q.1 == k2) p rest hp2]
          simpa [lookupHeader] using ih

/-- Claim C10: `AuthPlugin.pre_request` returns its options unchanged
when `api_key` is the empty string; when `api_key` is non-empty and
`auth_method` is Bearer, the result keeps every non-headers option and
every header other than Authorization unchanged and sets the
Authorization header to `Bearer ` followed by the key. -/
theorem auth_plugin_frame (st : AuthPluginState) (kw : Kwargs) :
    (st.api_key = "" → AuthPlugin.pre_request st kw = kw) ∧
    (st.api_key ≠ "" → st.auth_method = "Bearer" →
      (AuthPlugin.pre_request st kw).rest = kw.rest ∧
      lookupHeader ((AuthPlugin.pre_request st kw).headers.getD [])
        "Authorization" = some ("Bearer " ++ st.api_key) ∧
      (∀ k2, k2 ≠ "Authorization" →
        lookupHeader ((AuthPlugin.pre_request st kw).headers.getD []) k2 =
          lookupHeader (kw.headers.getD []) k2)) := by
  constructor
  · intro h
    simp [AuthPlugin.pre_request, h]
  · intro hne hb
    have hres : AuthPlugin.pre_request st kw =
        { kw with headers := some (setHeader (kw.headers.getD [])
            "Authorization" ("Bearer " ++ st.api_key)) } := by
      simp [AuthPlugin.pre_request, hne, hb]
    rw [hres]
    refine ⟨rfl, ?_, ?_⟩
    · simpa using lookupHeader_setHeader_self (kw.headers.getD [])
        "Authorization" ("Bearer " ++ st.api_key)
    · intro k2 hk2
      simpa using lookupHeader_setHeader_other (kw.headers.getD [])
        "Authorization" ("Bearer " ++ st.api_key) k2 hk2

theorem auth_plugin_frame_witness :
    (AuthPlugin.pre_request ⟨"", "Bearer"⟩
        ⟨some [("Accept", "json")], [("t", "5")]⟩ =
      ⟨some [("Accept", "json")], [("t", "5")]⟩) ∧
    (AuthPlugin.pre_request ⟨"KEY", "Bearer"⟩
        ⟨some [("Accept", "json")], [("t", "5")]⟩).rest = [("t", "5")] ∧
    lookupHeader ((AuthPlugin.pre_request ⟨"KEY", "Bearer"⟩
        ⟨some [("Accept", "json")], [("t", "5")]⟩).headers.getD [])
      "Authorization" = some ("Bearer " ++ "KEY") ∧
    lookupHeader ((AuthPlugin.pre_request ⟨"KEY", "Bearer"⟩
        ⟨some [("Accept", "json")], [("t", "5")]⟩).headers.getD [])
      "Accept" = some "json" := by
  have h0 := (auth_plugin_frame ⟨"", "Bearer"⟩
    ⟨some [("Accept", "json")], [("t", "5")]⟩).1 rfl
  have h := (auth_plugin_frame ⟨"KEY", "Bearer"⟩
    ⟨some [("Accept", "json")], [("t", "5")]⟩).2 (by decide) rfl
  refine ⟨h0, h.1, h.2.1, ?_⟩
  rw [h.2.2 "Accept" (by decide)]
  rfl

end HTTPWrapper
